import Mathlib

/-!
Verification of the TalkToMe MCP voice-session core: a shallow embedding of
`call_manager.py`, `utils.py`, and the provider modules
(`phone_local.py`, `stt_whisper.py`, `tts_piper.py`, `providers/base.py`),
with theorems settling the behavioural claims about session lifecycle,
echo suppression, speech segmentation and sentence-chunked synthesis.
-/

namespace TalkToMe

/-! ## Sentence splitting (`utils.split_into_sentences`, also duplicated as
`PiperTTSProvider._split_into_sentences`)

The Python code is `re.findall(r"[^.!?]+[.!?]+|[^.!?]+$", text)` followed by
stripping whitespace from each match and dropping empty results.  We embed the
regex scan as a character-level recursion: a match is a maximal run of
non-terminator characters followed by a maximal run of terminators, or a
trailing run of non-terminators; terminator characters that cannot start a
match are skipped, exactly as `findall` advances past positions where the
pattern cannot match. -/

def isSentenceTerm (c : Char) : Bool := c == '.' || c == '!' || c == '?'

/-- Scan of the regex `[^.!?]+[.!?]+|[^.!?]+$` over a character list.
`acc` holds the current partial match in reverse; `inTerm` records whether the
partial match has already consumed terminator characters (so a following
non-terminator ends the match). -/
def runsAux : List Char → List Char → Bool → List (List Char)
  | [], acc, _ => if acc.isEmpty then [] else [acc.reverse]
  | c :: rest, acc, inTerm =>
    if isSentenceTerm c then
      if acc.isEmpty then runsAux rest [] false
      else runsAux rest (c :: acc) true
    else
      if inTerm then acc.reverse :: runsAux rest [c] false
      else runsAux rest (c :: acc) false

/-- Python `str.strip()`: drop whitespace from both ends. -/
def pyStrip (s : List Char) : List Char :=
  ((s.dropWhile Char.isWhitespace).reverse.dropWhile Char.isWhitespace).reverse

/-- `utils.split_into_sentences`: regex matches, each stripped, empties dropped. -/
def split_into_sentences (text : String) : List String :=
  ((runsAux text.toList [] false).map (fun r => String.mk (pyStrip r))).filter
    (fun s => !s.isEmpty)

/-! ## Session manager state (`call_manager.CallManager` composed with the
recording flag of `phone_local.LocalCall`)

`CallManager.__init__` sets `active_call_id = None`, `call_active = False`,
`call_transcript = []`, `_pending_transcription = None` and a cleared
`asyncio.Event`; `LocalCall.__init__` sets `recording = True`.  Timestamps
(`datetime.now().isoformat()`) are opaque strings supplied as parameters. -/

structure TranscriptEntry where
  role : String
  text : String
  timestamp : String
deriving Repr, DecidableEq

structure CMState where
  active_call_id : Option String
  call_active : Bool
  call_transcript : List TranscriptEntry
  recording : Bool
  pending_transcription : Option String
  transcription_event : Bool
  transcript_timeout_ms : Nat
deriving Repr, DecidableEq

/-- `DEFAULT_TRANSCRIPT_TIMEOUT_MS = 180000` in `call_manager.py`. -/
def DEFAULT_TRANSCRIPT_TIMEOUT_MS : Nat := 180000

/-- Fresh manager state as built by `CallManager.__init__` (with a
`LocalPhoneProvider` whose calls start with `recording = True`). -/
def initState (timeout : Nat) : CMState :=
  { active_call_id := none
    call_active := false
    call_transcript := []
    recording := true
    pending_transcription := none
    transcription_event := false
    transcript_timeout_ms := timeout }

/-- The structured result dict returned by the manager operations:
`success`, optional `error`, optional `call_id`. -/
structure OpResult where
  success : Bool
  error : Option String
  call_id : Option String
deriving Repr, DecidableEq

/-! ## `CallManager.initiate_call` and `CallManager.get_transcript` -/

/-- `CallManager.initiate_call`: if `self.active_call_id` is set, return the
already-active error (carrying the current id) and touch nothing.  Otherwise
run `phone_provider.make_call` — whose outcome we pass in as `makeCall`, since
it talks to the audio device — and on success install the new call id, set
`call_active`, and reset the transcript; on an exception return its message. -/
def initiate_call (st : CMState) (makeCall : Except String String) :
    OpResult × CMState :=
  match st.active_call_id with
  | some cid => (⟨false, some "A call is already active", some cid⟩, st)
  | none =>
    match makeCall with
    | .ok call_id =>
        (⟨true, none, some call_id⟩,
         { st with active_call_id := some call_id
                   call_active := true
                   call_transcript := [] })
    | .error e => (⟨false, some e, none⟩, st)

/-- Result of `CallManager.get_transcript`. -/
structure TranscriptResult where
  success : Bool
  transcript : List TranscriptEntry
  call_active : Bool
  call_id : Option String
deriving Repr, DecidableEq

/-- `CallManager.get_transcript`: read-only snapshot. -/
def get_transcript (st : CMState) : TranscriptResult :=
  ⟨true, st.call_transcript, st.call_active, st.active_call_id⟩

/-! ## `CallManager.speak` as an event trace

`speak` appends an assistant transcript entry, pauses recording, streams the
synthesized chunks to playback (`send_audio` + `wait_for_playback_complete`
per chunk), and resumes recording; the `except` branch also resumes recording
before returning the error.  We record the externally visible operations as an
event trace and thread the manager/call state; the synthesizer and playback,
being external, are summarised by a `SynthOutcome`: either every chunk is
produced and played, or an exception interrupts after a prefix of chunks. -/

inductive SpeakEvent where
  | appendEntry (e : TranscriptEntry)
  | pauseRec
  | playChunk (audio : List Int)
  | resumeRec
deriving Repr, DecidableEq

inductive SynthOutcome where
  | ok (chunks : List (List Int))
  | fail (before : List (List Int)) (err : String)
deriving Repr, DecidableEq

/-- `CallManager.speak`. `now` is the timestamp string for the transcript
entry; the returned trace lists the operations in program order. -/
def speak (st : CMState) (text now : String) (outcome : SynthOutcome) :
    List SpeakEvent × OpResult × CMState :=
  match st.active_call_id with
  | none => ([], ⟨false, some "No active call", none⟩, st)
  | some _ =>
    let entry : TranscriptEntry := ⟨"assistant", text, now⟩
    let st1 := { st with call_transcript := st.call_transcript ++ [entry] }
    let st2 := { st1 with recording := false }
    match outcome with
    | .ok chunks =>
        (SpeakEvent.appendEntry entry :: SpeakEvent.pauseRec ::
           (chunks.map SpeakEvent.playChunk ++ [SpeakEvent.resumeRec]),
         ⟨true, none, none⟩,
         { st2 with recording := true })
    | .fail before err =>
        (SpeakEvent.appendEntry entry :: SpeakEvent.pauseRec ::
           (before.map SpeakEvent.playChunk ++ [SpeakEvent.resumeRec]),
         ⟨false, some err, none⟩,
         { st2 with recording := true })

/-- The microphone callback of `LocalCall.start_recording`: a captured block
is enqueued to the capture queue only when `self.recording` is set. -/
def captureCallback (recording : Bool) (queue : List (List Int))
    (indata : List Int) : List (List Int) :=
  if recording then queue ++ [indata] else queue

/-- Recording flag after replaying a trace prefix, starting from `r`:
`pauseRec` clears it, `resumeRec` sets it, other events leave it alone. -/
def recAfter (r : Bool) : List SpeakEvent → Bool
  | [] => r
  | SpeakEvent.pauseRec :: rest => recAfter false rest
  | SpeakEvent.resumeRec :: rest => recAfter true rest
  | _ :: rest => recAfter r rest

def isPlay : SpeakEvent → Bool
  | SpeakEvent.playChunk _ => true
  | _ => false

/-! ## `CallManager.listen`

`listen` raises if there is no active call; replaces a falsy `timeout_ms`
(`None` or `0`) by the configured default; clears the transcription event and
the pending slot; then waits.  The ingestion loop's behaviour during the wait
is summarised by `arrival`: `some txt` if it signals a completed utterance
(storing `txt` in the pending slot) before the timeout, `none` otherwise. -/

inductive ListenError where
  | noActiveCall
  | timeout (waited_ms : Nat)
deriving Repr, DecidableEq

/-- `timeout_ms or self.transcript_timeout_ms`: Python `or` takes the default
for `None` and for `0` alike. -/
def effectiveTimeout (st : CMState) (timeout_ms : Option Nat) : Nat :=
  match timeout_ms with
  | none => st.transcript_timeout_ms
  | some t => if t = 0 then st.transcript_timeout_ms else t

/-- `CallManager.listen`. -/
def listen (st : CMState) (timeout_ms : Option Nat) (arrival : Option String) :
    Except ListenError (String × CMState) :=
  match st.active_call_id with
  | none => .error ListenError.noActiveCall
  | some _ =>
    let t := effectiveTimeout st timeout_ms
    let st1 := { st with transcription_event := false
                         pending_transcription := none }
    match arrival with
    | none => .error (ListenError.timeout t)
    | some txt =>
        let st2 := { st1 with pending_transcription := some txt
                              transcription_event := true }
        let result := st2.pending_transcription.getD ""
        .ok (result, { st2 with pending_transcription := none })

/-! ## Background ingestion loop (`CallManager._process_incoming_audio`)

The loop pulls chunks from the capture stream; each iteration first checks
`call_active` (breaking when false), then runs the chunk through
`stt_provider.process_audio_chunk`, and, when text comes back truthy, appends
a user transcript entry and signals the pending-transcription event.  The
whole `async for` sits inside one `try`: an exception raised in any iteration
is caught outside the loop, logged, and the task ends.  The per-chunk STT
behaviour is summarised by a `ChunkOutcome`. -/

inductive ChunkOutcome where
  | text (t : String)
  | silent
  | err (e : String)
deriving Repr, DecidableEq

/-- One run of the ingestion loop over the captured chunks.  Returns the final
manager state, how many chunks were handed to the STT provider, and the
logged error message if an iteration raised. -/
def ingestLoop (now : String) : CMState → List ChunkOutcome → CMState × Nat × Option String
  | st, [] => (st, 0, none)
  | st, c :: rest =>
    if st.call_active = false then (st, 0, none)
    else
      match c with
      | ChunkOutcome.err e => (st, 1, some e)
      | ChunkOutcome.silent =>
          let r := ingestLoop now st rest
          (r.1, r.2.1 + 1, r.2.2)
      | ChunkOutcome.text t =>
          if t = "" then
            let r := ingestLoop now st rest
            (r.1, r.2.1 + 1, r.2.2)
          else
            let st1 := { st with
              call_transcript := st.call_transcript ++ [⟨"user", t, now⟩]
              pending_transcription := some t
              transcription_event := true }
            let r := ingestLoop now st1 rest
            (r.1, r.2.1 + 1, r.2.2)

/-! ## Speech segmenter (`stt_whisper.WhisperSTTProvider.process_audio_chunk`)

Audio is modelled as lists of int16 sample values, so the byte count
`len(audio)` in the source corresponds to `2 * audio.length` and the sample
count `len(audio) // 2` to `audio.length`.  We embed the amplitude-fallback
voice-activity branch (`vad_model is None`), which is the pure in-repository
detector; the Silero path calls an external model.  The external recognizer
(`self.transcribe`, a Whisper inference) is the parameter `transcribe`.
Defaults: `sample_rate = 16000`, `silence_duration_ms = 800`, hence
`silence_threshold = int(800 * 16000 / 1000) = 12800` samples. -/

structure STTState where
  streaming : Bool
  audio_buffer : List Int
  silence_samples : Nat
  silence_threshold : Nat
deriving Repr, DecidableEq

/-- Threshold with the default `silence_duration_ms = 800` at 16 kHz. -/
def defaultSilenceThreshold : Nat := 800 * 16000 / 1000

/-- `WhisperSTTProvider.start_stream` on a provider built with defaults. -/
def startedSTTState : STTState :=
  { streaming := true
    audio_buffer := []
    silence_samples := 0
    silence_threshold := defaultSilenceThreshold }

/-- `np.max(np.abs(audio_array))` over int16 samples. -/
def maxAmplitude (audio : List Int) : Nat :=
  audio.foldl (fun m x => max m x.natAbs) 0

/-- Python `str.strip` on a `String`. -/
def pyStripStr (s : String) : String := String.mk (pyStrip s.toList)

/-- `WhisperSTTProvider.process_audio_chunk`: returns the text handed back to
the caller (if any), the new segmenter state, and whether the buffer was
flushed to the recognizer on this chunk. -/
def process_audio_chunk (transcribe : List Int → String) (st : STTState)
    (audio : List Int) : Option String × STTState × Bool :=
  if st.streaming = false then (none, st, false)
  else
    let buf := st.audio_buffer ++ audio
    let silence :=
      if maxAmplitude audio < 500 then st.silence_samples + audio.length else 0
    if st.silence_threshold ≤ silence ∧ 0 < buf.length then
      let result := transcribe buf
      let st1 := { st with audio_buffer := [], silence_samples := 0 }
      (if pyStripStr result = "" then none else some result, st1, true)
    else
      (none, { st with audio_buffer := buf, silence_samples := silence }, false)

/-- Feed a chunk sequence through the segmenter, counting recognizer flushes. -/
def runChunks (transcribe : List Int → String) :
    STTState → List (List Int) → STTState × Nat
  | st, [] => (st, 0)
  | st, c :: rest =>
    let step := process_audio_chunk transcribe st c
    let r := runChunks transcribe step.2.1 rest
    (r.1, (if step.2.2 then 1 else 0) + r.2)

/-! ## Call duration and `CallManager.end_call`

`_calculate_duration` returns `"0:00"` on an empty transcript; otherwise it
parses the first and last timestamps with `datetime.fromisoformat` (an
external standard-library call, modelled by the parameter `parse` giving the
timestamp as seconds, `none` when parsing raises) and formats
`f"{minutes}:{seconds:02d}"` with Python floor division/modulo; any parse
failure lands in the bare `except` and yields `"unknown"`. -/

/-- Python `f"{n:02d}"` for the 0–59 second field. -/
def twoDigit (n : Int) : String :=
  if 0 ≤ n ∧ n < 10 then "0" ++ toString n else toString n

/-- `CallManager._calculate_duration`. -/
def calculate_duration (parse : String → Option Int) :
    List TranscriptEntry → String
  | [] => "0:00"
  | first :: rest =>
    let last := (first :: rest).getLast (List.cons_ne_nil _ _)
    match parse first.timestamp, parse last.timestamp with
    | some t0, some t1 =>
        let total := t1 - t0
        toString (Int.fdiv total 60) ++ ":" ++ twoDigit (Int.fmod total 60)
    | _, _ => "unknown"

structure EndResult where
  success : Bool
  error : Option String
  call_id : Option String
  duration : Option String
  transcript : List TranscriptEntry
deriving Repr, DecidableEq

/-- `CallManager.end_call`, success path of the provider teardown
(`stop_stream` / `hang_up` succeed; their failure branch only returns the
exception message).  `final_text` is what
`stt_provider.get_final_transcription` returns for the remaining buffer; a
falsy (empty) result is not appended. -/
def end_call (parse : String → Option Int) (st : CMState)
    (final_text now : String) : EndResult × CMState :=
  match st.active_call_id with
  | none => (⟨false, some "No active call", none, none, []⟩, st)
  | some cid =>
    let st1 := { st with call_active := false }
    let st2 :=
      if final_text = "" then st1
      else { st1 with
        call_transcript := st1.call_transcript ++ [⟨"user", final_text, now⟩] }
    let dur := calculate_duration parse st2.call_transcript
    (⟨true, none, some cid, some dur, st2.call_transcript⟩,
     { st2 with active_call_id := none, call_transcript := [] })

/-! ## Streaming synthesis (`base.TTSProvider.synthesize_stream` and
`tts_piper.PiperTTSProvider.synthesize_stream`)

The external synthesizer is `synth : String → Except String (List Int)`
(`Except` for a raised `SynthesisFailure`).  The base implementation loops
over the sentences sequentially; Piper's override launches one task per
sentence and iterates `asyncio.as_completed(tasks)`, which yields the tasks
in the order they complete — that order is the parameter `completionOrder`,
a sequence of indices into the sentence list. -/

/-- Per-sentence yield decision shared by both loops: a failed synthesis is
logged and skipped; falsy (empty) audio is not yielded. -/
def yieldOf (synth : String → Except String (List Int)) (s : String) :
    Option (List Int) :=
  match synth s with
  | .ok a => if a = [] then none else some a
  | .error _ => none

/-- The base sequential loop: `for sentence in sentences: if sentence: try:
audio = synthesize(sentence); if audio: yield audio; except: continue`. -/
def streamLoop (synth : String → Except String (List Int)) :
    List String → List (List Int)
  | [] => []
  | s :: rest =>
    if s = "" then streamLoop synth rest
    else
      match synth s with
      | .ok a => if a = [] then streamLoop synth rest
                 else a :: streamLoop synth rest
      | .error _ => streamLoop synth rest

/-- `base.TTSProvider.synthesize_stream`: one blocking call when the text has
at most one sentence (an exception there propagates), else the sequential
loop. -/
def base_synthesize_stream (synth : String → Except String (List Int))
    (text : String) : Except String (List (List Int)) :=
  let sentences := split_into_sentences text
  if sentences.length ≤ 1 then
    match synth text with
    | .ok a => .ok (if a = [] then [] else [a])
    | .error e => .error e
  else
    .ok (streamLoop synth sentences)

/-- Piper's `as_completed` loop: `for task in asyncio.as_completed(tasks):
try: audio = await task; if audio: yield audio; except: continue`, the tasks
arriving in completion order. -/
def piperStreamLoop (synth : String → Except String (List Int))
    (sentences : List String) : List Nat → List (List Int)
  | [] => []
  | i :: rest =>
    match (sentences.get? i).bind (yieldOf synth) with
    | some a => a :: piperStreamLoop synth sentences rest
    | none => piperStreamLoop synth sentences rest

/-- `PiperTTSProvider.synthesize_stream`: single-sentence text is synthesized
in one call and yielded unconditionally; otherwise one task per sentence,
yielded in completion order. -/
def piper_synthesize_stream (synth : String → Except String (List Int))
    (text : String) (completionOrder : List Nat) :
    Except String (List (List Int)) :=
  let sentences := split_into_sentences text
  if sentences.length ≤ 1 then
    match synth text with
    | .ok a => .ok [a]
    | .error e => .error e
  else
    .ok (piperStreamLoop synth sentences completionOrder)

/-- Sample synthesizer used for concrete runs: each sentence maps to the list
of its character codes, so distinct sentences give distinct audio. -/
def synthAudio (s : String) : List Int := s.toList.map (fun c => (c.toNat : Int))

def synthOk (s : String) : Except String (List Int) := .ok (synthAudio s)

/-- A concrete manager state with an active call, shared by the concrete
instantiations below: the state right after a successful `initiate_call` on a
fresh default-configured manager. -/
def activeState : CMState :=
  { active_call_id := some "local-1"
    call_active := true
    call_transcript := []
    recording := true
    pending_transcription := none
    transcription_event := false
    transcript_timeout_ms := 180000 }

end TalkToMe

open TalkToMe

/-! ### Trace decomposition lemmas for `speak` -/

lemma playDecompAux (cs : List (List Int)) :
    ∀ pre (c : List Int) suf,
      cs.map SpeakEvent.playChunk ++ [SpeakEvent.resumeRec] =
        pre ++ SpeakEvent.playChunk c :: suf →
      recAfter false pre = false ∧ SpeakEvent.resumeRec ∈ suf := by
  induction cs with
  | nil =>
    intro pre c suf h
    cases pre with
    | nil => simp at h
    | cons p pre2 =>
      rw [List.map_nil, List.nil_append, List.cons_append] at h
      have h2 := (List.cons.injEq _ _ _ _).mp h
      exact absurd h2.2 (by simp)
  | cons c0 cs ih =>
    intro pre c suf h
    cases pre with
    | nil =>
      rw [List.map_cons, List.cons_append, List.nil_append] at h
      have h2 := (List.cons.injEq _ _ _ _).mp h
      refine ⟨rfl, ?_⟩
      rw [← h2.2]
      simp
    | cons p pre2 =>
      rw [List.map_cons, List.cons_append, List.cons_append] at h
      have h2 := (List.cons.injEq _ _ _ _).mp h
      have h3 := ih pre2 c suf h2.2
      refine ⟨?_, h3.2⟩
      rw [← h2.1]
      simpa [recAfter] using h3.1

lemma playDecomp (r : Bool) (e : TranscriptEntry) (cs : List (List Int)) :
    ∀ pre (c : List Int) suf,
      SpeakEvent.appendEntry e :: SpeakEvent.pauseRec ::
          (cs.map SpeakEvent.playChunk ++ [SpeakEvent.resumeRec]) =
        pre ++ SpeakEvent.playChunk c :: suf →
      SpeakEvent.pauseRec ∈ pre ∧ recAfter r pre = false ∧
        SpeakEvent.resumeRec ∈ suf := by
  intro pre c suf h
  cases pre with
  | nil => simp at h
  | cons x pre1 =>
    cases pre1 with
    | nil =>
      rw [List.cons_append, List.nil_append] at h
      have h2 := (List.cons.injEq _ _ _ _).mp h
      have h3 := (List.cons.injEq _ _ _ _).mp h2.2
      exact absurd h3.1 (by simp)
    | cons y pre2 =>
      rw [List.cons_append, List.cons_append] at h
      have h2 := (List.cons.injEq _ _ _ _).mp h
      have h3 := (List.cons.injEq _ _ _ _).mp h2.2
      have h4 := playDecompAux cs pre2 c suf h3.2
      refine ⟨?_, ?_, h4.2⟩
      · rw [← h3.1]; simp
      · rw [← h2.1, ← h3.1]
        simpa [recAfter] using h4.1

/-- C1: with an active session, every path through `speak` pauses capture
before any synthesized chunk is played (the recording flag is off at each
play event), resume-capture executes on both the success and the failure
path and only after all play events, capture is live again when `speak`
returns, and a capture block arriving while paused is never enqueued to the
capture queue. -/
theorem C1_speak_mute_discipline (st : CMState) (cid text now : String)
    (outcome : SynthOutcome) (h : st.active_call_id = some cid) :
    (∀ pre (c : List Int) suf,
        (speak st text now outcome).1 = pre ++ SpeakEvent.playChunk c :: suf →
        SpeakEvent.pauseRec ∈ pre ∧ recAfter st.recording pre = false ∧
          SpeakEvent.resumeRec ∈ suf) ∧
    SpeakEvent.resumeRec ∈ (speak st text now outcome).1 ∧
    (speak st text now outcome).2.2.recording = true ∧
    (∀ q b, captureCallback false q b = q) := by
  cases outcome with
  | ok chunks =>
    refine ⟨?_, ?_, ?_, ?_⟩
    · intro pre c suf hdec
      simp only [speak, h] at hdec
      exact playDecomp st.recording ⟨"assistant", text, now⟩ chunks pre c suf hdec
    · simp [speak, h]
    · simp [speak, h]
    · intro q b; simp [captureCallback]
  | fail before err =>
    refine ⟨?_, ?_, ?_, ?_⟩
    · intro pre c suf hdec
      simp only [speak, h] at hdec
      exact playDecomp st.recording ⟨"assistant", text, now⟩ before pre c suf hdec
    · simp [speak, h]
    · simp [speak, h]
    · intro q b; simp [captureCallback]

/-- Witness for C1 at a concrete active state and a failing synthesis. -/
theorem C1_speak_mute_discipline_witness :
    activeState.active_call_id = some "local-1" ∧
    ((∀ pre (c : List Int) suf,
        (speak activeState "hi" "t0" (SynthOutcome.fail [[1]] "boom")).1 =
          pre ++ SpeakEvent.playChunk c :: suf →
        SpeakEvent.pauseRec ∈ pre ∧ recAfter activeState.recording pre = false ∧
          SpeakEvent.resumeRec ∈ suf) ∧
    SpeakEvent.resumeRec ∈
      (speak activeState "hi" "t0" (SynthOutcome.fail [[1]] "boom")).1 ∧
    (speak activeState "hi" "t0" (SynthOutcome.fail [[1]] "boom")).2.2.recording
        = true ∧
    (∀ q b, captureCallback false q b = q)) :=
  ⟨rfl, C1_speak_mute_discipline activeState "local-1" "hi" "t0"
    (SynthOutcome.fail [[1]] "boom") rfl⟩

/-- C9: with an active session, `speak` appends the assistant transcript
entry before capture is paused and synthesis starts (it is the first event of
the trace), and the entry survives a failed speak: on every outcome the final
transcript is the old transcript plus exactly that one assistant entry. -/
theorem C9_speak_transcript_append (st : CMState) (cid text now : String)
    (outcome : SynthOutcome) (h : st.active_call_id = some cid) :
    (speak st text now outcome).2.2.call_transcript =
      st.call_transcript ++ [⟨"assistant", text, now⟩] ∧
    (speak st text now outcome).1.head? =
      some (SpeakEvent.appendEntry ⟨"assistant", text, now⟩) := by
  cases outcome <;> simp [speak, h]

/-- Witness for C9 at a concrete active state and a failing synthesis. -/
theorem C9_speak_transcript_append_witness :
    activeState.active_call_id = some "local-1" ∧
    ((speak activeState "hi" "t0" (SynthOutcome.fail [] "boom")).2.2.call_transcript
        = activeState.call_transcript ++ [⟨"assistant", "hi", "t0"⟩] ∧
    (speak activeState "hi" "t0" (SynthOutcome.fail [] "boom")).1.head? =
      some (SpeakEvent.appendEntry ⟨"assistant", "hi", "t0"⟩)) :=
  ⟨rfl, C9_speak_transcript_append activeState "local-1" "hi" "t0"
    (SynthOutcome.fail [] "boom") rfl⟩


/-- C8: splitting "Hello world. How are you? Fine" yields exactly the three
sentences, and re-joining them with single spaces reconstructs the original
string exactly. -/
theorem C8_sentence_round_trip :
    TalkToMe.split_into_sentences "Hello world. How are you? Fine" =
      ["Hello world.", "How are you?", "Fine"] ∧
    String.intercalate " "
        (TalkToMe.split_into_sentences "Hello world. How are you? Fine") =
      "Hello world. How are you? Fine" := by
  constructor <;> rfl

/-- C5: while a session is active, a second `initiate_call` fails with the
already-active error, changes no manager state (call id, active flag and
transcript identical before and after), and `get_transcript` still reports
the original session id. -/
theorem C5_initiate_already_active (st : CMState) (cid : String)
    (mc : Except String String) (h : st.active_call_id = some cid) :
    (initiate_call st mc).1.success = false ∧
    (initiate_call st mc).1.error = some "A call is already active" ∧
    (initiate_call st mc).1.call_id = some cid ∧
    (initiate_call st mc).2 = st ∧
    (get_transcript (initiate_call st mc).2).call_id = some cid ∧
    (get_transcript (initiate_call st mc).2).transcript = st.call_transcript ∧
    (get_transcript (initiate_call st mc).2).call_active = st.call_active := by
  simp [initiate_call, get_transcript, h]

/-- Witness for C5: second initiate against the concrete active state. -/
theorem C5_initiate_already_active_witness :
    activeState.active_call_id = some "local-1" ∧
    ((initiate_call activeState (Except.ok "local-2")).1.success = false ∧
    (initiate_call activeState (Except.ok "local-2")).1.error =
      some "A call is already active" ∧
    (initiate_call activeState (Except.ok "local-2")).1.call_id = some "local-1" ∧
    (initiate_call activeState (Except.ok "local-2")).2 = activeState ∧
    (get_transcript (initiate_call activeState (Except.ok "local-2")).2).call_id
        = some "local-1" ∧
    (get_transcript (initiate_call activeState (Except.ok "local-2")).2).transcript
        = activeState.call_transcript ∧
    (get_transcript (initiate_call activeState (Except.ok "local-2")).2).call_active
        = activeState.call_active) :=
  ⟨rfl, C5_initiate_already_active activeState "local-1" (Except.ok "local-2") rfl⟩

/-- C6: with an active session, `listen` first clears the pending slot, so a
pre-existing stale utterance is never returned (changing the stale slot does
not change the outcome at all); with no utterance signalled during the wait
it fails with a timeout of the effective duration, whose default (no argument)
is the configured `transcript_timeout_ms`, 180000 ms on a default-configured
manager; and when the ingestion loop signals `txt` during the wait, `listen`
returns exactly `txt` and leaves the pending slot empty, so a later `listen`
cannot re-deliver it. -/
theorem C6_listen_no_stale_delivery (st : CMState) (cid : String)
    (tms : Option Nat) (h : st.active_call_id = some cid) :
    (∀ p arrival, listen { st with pending_transcription := p } tms arrival =
        listen st tms arrival) ∧
    listen st tms none = Except.error (ListenError.timeout (effectiveTimeout st tms)) ∧
    effectiveTimeout st none = st.transcript_timeout_ms ∧
    (st.transcript_timeout_ms = DEFAULT_TRANSCRIPT_TIMEOUT_MS →
      effectiveTimeout st none = 180000) ∧
    (∀ txt, ∃ st2, listen st tms (some txt) = Except.ok (txt, st2) ∧
        st2.pending_transcription = none) := by
  refine ⟨?_, ?_, ?_, ?_, ?_⟩
  · intro p arrival
    cases arrival <;> simp [TalkToMe.listen, effectiveTimeout, h]
  · simp [TalkToMe.listen, h]
  · simp [effectiveTimeout]
  · intro hd; simp [effectiveTimeout, hd, DEFAULT_TRANSCRIPT_TIMEOUT_MS]
  · intro txt
    refine ⟨{ st with transcription_event := true
                      pending_transcription := none }, ?_, ?_⟩
    · simp [TalkToMe.listen, h]
    · simp

/-- Witness for C6 at the concrete active state carrying a stale pending
utterance. -/
theorem C6_listen_no_stale_delivery_witness :
    ({ activeState with pending_transcription := some "stale" } :
        CMState).active_call_id = some "local-1" ∧
    ((∀ p arrival,
        listen { ({ activeState with pending_transcription := some "stale" } :
            CMState) with pending_transcription := p } (some 250) arrival =
        listen { activeState with pending_transcription := some "stale" }
          (some 250) arrival) ∧
    listen { activeState with pending_transcription := some "stale" }
        (some 250) none =
      Except.error (ListenError.timeout (effectiveTimeout
        { activeState with pending_transcription := some "stale" } (some 250))) ∧
    effectiveTimeout { activeState with pending_transcription := some "stale" }
        none =
      ({ activeState with pending_transcription := some "stale" } :
        CMState).transcript_timeout_ms ∧
    (({ activeState with pending_transcription := some "stale" } :
        CMState).transcript_timeout_ms = DEFAULT_TRANSCRIPT_TIMEOUT_MS →
      effectiveTimeout { activeState with pending_transcription := some "stale" }
        none = 180000) ∧
    (∀ txt, ∃ st2,
        listen { activeState with pending_transcription := some "stale" }
          (some 250) (some txt) = Except.ok (txt, st2) ∧
        st2.pending_transcription = none)) :=
  ⟨rfl, C6_listen_no_stale_delivery
    { activeState with pending_transcription := some "stale" } "local-1"
    (some 250) rfl⟩

/-- C10: a `listen` call with `timeout_ms = 0` is not an immediate timeout:
Python `or` treats `0` as falsy, so the effective timeout is the configured
default — 180000 ms on a default-configured manager — and the whole call
behaves identically to `listen` with no timeout argument. -/
theorem C10_listen_zero_timeout (st : CMState)
    (h : st.transcript_timeout_ms = DEFAULT_TRANSCRIPT_TIMEOUT_MS) :
    effectiveTimeout st (some 0) = st.transcript_timeout_ms ∧
    effectiveTimeout st (some 0) = 180000 ∧
    (∀ arrival, listen st (some 0) arrival = listen st none arrival) := by
  refine ⟨?_, ?_, ?_⟩
  · simp [effectiveTimeout]
  · simp [effectiveTimeout, h, DEFAULT_TRANSCRIPT_TIMEOUT_MS]
  · intro arrival
    cases harr : st.active_call_id <;> cases arrival <;>
      simp [TalkToMe.listen, effectiveTimeout, harr]

/-- Witness for C10 on a default-configured manager state. -/
theorem C10_listen_zero_timeout_witness :
    activeState.transcript_timeout_ms = DEFAULT_TRANSCRIPT_TIMEOUT_MS ∧
    (effectiveTimeout activeState (some 0) = activeState.transcript_timeout_ms ∧
    effectiveTimeout activeState (some 0) = 180000 ∧
    (∀ arrival, listen activeState (some 0) arrival =
      listen activeState none arrival)) :=
  ⟨rfl, C10_listen_zero_timeout activeState rfl⟩

/-! ### C4: error handling in the ingestion loop -/

lemma ingestLoop_err_stops (now e : String) (post : List ChunkOutcome) :
    ∀ (pre : List ChunkOutcome) (st : CMState), st.call_active = true →
      (∀ c ∈ pre, ∀ e2, c ≠ ChunkOutcome.err e2) →
      ∃ st2, ingestLoop now st (pre ++ ChunkOutcome.err e :: post) =
        (st2, pre.length + 1, some e) := by
  intro pre
  induction pre with
  | nil =>
    intro st hact _
    exact ⟨st, by simp [ingestLoop, hact]⟩
  | cons c pre ih =>
    intro st hact hpre
    have hc : ∀ e2, c ≠ ChunkOutcome.err e2 := hpre c (by simp)
    have hpre2 : ∀ x ∈ pre, ∀ e2, x ≠ ChunkOutcome.err e2 := by
      intro x hx
      exact hpre x (by simp [hx])
    cases c with
    | err e2 => exact absurd rfl (hc e2)
    | silent =>
      obtain ⟨st2, h2⟩ := ih st hact hpre2
      refine ⟨st2, ?_⟩
      simp only [List.cons_append, ingestLoop, hact]
      simp [h2, Nat.add_comm, Nat.add_assoc]
    | text t =>
      by_cases ht : t = ""
      · obtain ⟨st2, h2⟩ := ih st hact hpre2
        refine ⟨st2, ?_⟩
        simp only [List.cons_append, ingestLoop, hact]
        simp [ht, h2, Nat.add_comm, Nat.add_assoc]
      · obtain ⟨st2, h2⟩ := ih
          { st with call_transcript := st.call_transcript ++ [⟨"user", t, now⟩]
                    pending_transcription := some t
                    transcription_event := true }
          hact hpre2
        refine ⟨st2, ?_⟩
        rw [hact] at h2
        simp only [List.cons_append, ingestLoop, hact]
        simp [ht, h2, Nat.add_comm, Nat.add_assoc]

/-- C4 counterexample: with an active session, an STT error in the first
iteration of the ingestion loop terminates the loop — the following chunk,
which would have transcribed to "hello", is never processed and the
transcript stays empty, contradicting the claim that errors inside one
iteration do not terminate the loop. -/
theorem C4_counterexample :
    ingestLoop "t0" activeState
        [ChunkOutcome.err "stt failure", ChunkOutcome.text "hello"] =
      (activeState, 1, some "stt failure") ∧
    (ingestLoop "t0" activeState
        [ChunkOutcome.err "stt failure", ChunkOutcome.text "hello"]).1.call_transcript
      = [] ∧
    (ingestLoop "t0" activeState
        [ChunkOutcome.err "stt failure", ChunkOutcome.text "hello"]).2.1 = 1 := by
  refine ⟨?_, ?_, ?_⟩ <;> rfl

/-- C4 (amended): with an active session, an error raised inside one
iteration of the ingestion loop is logged and terminates the loop after
exactly the iterations preceding it; the loop also stops at once when the
session is inactive and when the capture stream is exhausted. -/
theorem C4_ingestion_error_terminates (now e : String)
    (pre post : List ChunkOutcome) (st : CMState)
    (hact : st.call_active = true)
    (hpre : ∀ c ∈ pre, ∀ e2, c ≠ ChunkOutcome.err e2) :
    (∃ st2, ingestLoop now st (pre ++ ChunkOutcome.err e :: post) =
        (st2, pre.length + 1, some e)) ∧
    (∀ (st3 : CMState) chunks, st3.call_active = false →
        ingestLoop now st3 chunks = (st3, 0, none)) ∧
    ingestLoop now st [] = (st, 0, none) := by
  refine ⟨ingestLoop_err_stops now e post pre st hact hpre, ?_, rfl⟩
  intro st3 chunks hin
  cases chunks with
  | nil => rfl
  | cons c rest => simp [ingestLoop, hin]

/-- Witness for the amended C4: one clean iteration, then an error. -/
theorem C4_ingestion_error_terminates_witness :
    activeState.call_active = true ∧
    ((∃ st2, ingestLoop "t0" activeState
        ([ChunkOutcome.silent] ++ ChunkOutcome.err "boom" :: []) =
        (st2, [ChunkOutcome.silent].length + 1, some "boom")) ∧
    (∀ (st3 : CMState) chunks, st3.call_active = false →
        ingestLoop "t0" st3 chunks = (st3, 0, none)) ∧
    ingestLoop "t0" activeState [] = (activeState, 0, none)) :=
  ⟨rfl, C4_ingestion_error_terminates "t0" "boom" [ChunkOutcome.silent] []
    activeState rfl (by intro c hc e2; simp at hc; simp [hc])⟩

/-! ### C7: duration reporting -/

/-- C7 counterexample: `_calculate_duration` on an empty transcript returns
"0:00", not "unknown", and `end_call` on an active session whose transcript
is empty (with an empty final transcription) reports duration "0:00". -/
theorem C7_counterexample :
    calculate_duration (fun _ => none) [] = "0:00" ∧
    calculate_duration (fun _ => none) [] ≠ "unknown" ∧
    (end_call (fun _ => none) activeState "" "t0").1.duration = some "0:00" := by
  refine ⟨rfl, ?_, rfl⟩
  decide

/-- C7 (amended): the duration reported by `end_call` is computed from the
first and last transcript entry timestamps; it is "0:00" when the transcript
is empty — in particular ending a session with an empty transcript reports
"0:00" — and "unknown" when a timestamp is malformed (fails to parse). -/
theorem C7_duration_reporting (parse pbad : String → Option Int)
    (e ebad : TranscriptEntry) (rest restbad : List TranscriptEntry)
    (a b : Int) (st : CMState) (cid now : String)
    (h1 : parse e.timestamp = some a)
    (h2 : parse ((e :: rest).getLast (List.cons_ne_nil e rest)).timestamp = some b)
    (h3 : st.active_call_id = some cid)
    (h4 : st.call_transcript = [])
    (hbad : pbad ebad.timestamp = none) :
    calculate_duration parse [] = "0:00" ∧
    calculate_duration pbad (ebad :: restbad) = "unknown" ∧
    calculate_duration parse (e :: rest) =
      toString (Int.fdiv (b - a) 60) ++ ":" ++ twoDigit (Int.fmod (b - a) 60) ∧
    (end_call parse st "" now).1.duration = some "0:00" := by
  refine ⟨rfl, ?_, ?_, ?_⟩
  · simp [calculate_duration, hbad]
  · simp [calculate_duration, h1, h2]
  · simp [end_call, h3, h4, calculate_duration]

/-- Witness for the amended C7 with concrete timestamps 0 s and 75 s. -/
theorem C7_duration_reporting_witness :
    ((fun s => if s = "ta" then some (0 : Int)
               else if s = "tb" then some 75 else none) "ta" = some 0) ∧
    (calculate_duration (fun s => if s = "ta" then some (0 : Int)
          else if s = "tb" then some 75 else none) [] = "0:00" ∧
    calculate_duration (fun _ => (none : Option Int))
        [⟨"user", "hi", "bogus"⟩] = "unknown" ∧
    calculate_duration (fun s => if s = "ta" then some (0 : Int)
          else if s = "tb" then some 75 else none)
        [⟨"assistant", "hi", "ta"⟩, ⟨"user", "yo", "tb"⟩] =
      toString (Int.fdiv ((75 : Int) - 0) 60) ++ ":" ++
        twoDigit (Int.fmod ((75 : Int) - 0) 60) ∧
    (end_call (fun s => if s = "ta" then some (0 : Int)
          else if s = "tb" then some 75 else none)
        activeState "" "t0").1.duration = some "0:00") :=
  ⟨rfl, C7_duration_reporting
    (fun s => if s = "ta" then some (0 : Int)
              else if s = "tb" then some 75 else none)
    (fun _ => none)
    ⟨"assistant", "hi", "ta"⟩ ⟨"user", "hi", "bogus"⟩
    [⟨"user", "yo", "tb"⟩] [] 0 75 activeState "local-1" "t0"
    rfl rfl rfl rfl rfl⟩

/-! ### C2: segmentation flush condition -/

/-- 100 ms (1600 samples at 16 kHz) of amplitude-1000 audio: above the
amplitude threshold of 500 used by the fallback voice-activity detector. -/
def speechChunk : List Int := List.replicate 1600 1000

/-- 800 ms (12800 samples) of digital silence, the default silence duration. -/
def silence800 : List Int := List.replicate 12800 0

/-- 100 ms of above-threshold audio followed by 800 ms of silence. -/
def noiseRun : List (List Int) := [speechChunk, silence800]

lemma foldl_max_natAbs_replicate (a : Int) :
    ∀ (n m : Nat), (List.replicate n a).foldl (fun m x => max m x.natAbs) m =
      if n = 0 then m else max m a.natAbs := by
  intro n
  induction n with
  | zero => intro m; rfl
  | succ n ih =>
    intro m
    rw [List.replicate_succ, List.foldl_cons, ih]
    by_cases hn : n = 0 <;> simp [hn, max_assoc]

lemma maxAmplitude_replicate (n : Nat) (a : Int) :
    maxAmplitude (List.replicate n a) = if n = 0 then 0 else a.natAbs := by
  rw [maxAmplitude, foldl_max_natAbs_replicate]
  by_cases hn : n = 0 <;> simp [hn]

/-- A loud chunk (amplitude at or above 500) resets the silence counter and
is appended to the buffer without flushing (as long as the silence threshold
is positive). -/
lemma process_loud (f : List Int → String) (st : STTState) (audio : List Int)
    (h1 : st.streaming = true) (h2 : ¬ maxAmplitude audio < 500)
    (h3 : ¬ st.silence_threshold ≤ 0) :
    process_audio_chunk f st audio =
      (none,
       { st with audio_buffer := st.audio_buffer ++ audio, silence_samples := 0 },
       false) := by
  simp [process_audio_chunk, h1, h2, h3]

/-- A silent chunk that brings the silence counter up to the threshold while
the buffer is nonempty flushes the buffer to the recognizer. -/
lemma process_silent_flush (f : List Int → String) (st : STTState)
    (audio : List Int)
    (h1 : st.streaming = true) (h2 : maxAmplitude audio < 500)
    (h3 : st.silence_threshold ≤ st.silence_samples + audio.length)
    (h4 : 0 < st.audio_buffer.length ∨ 0 < audio.length) :
    process_audio_chunk f st audio =
      (if pyStripStr (f (st.audio_buffer ++ audio)) = "" then none
         else some (f (st.audio_buffer ++ audio)),
       { st with audio_buffer := [], silence_samples := 0 }, true) := by
  simp [process_audio_chunk, h1, h2, h3, h4]

lemma speechChunk_amp : maxAmplitude speechChunk = 1000 :=
  (maxAmplitude_replicate 1600 1000).trans (by simp)

lemma silence800_amp : maxAmplitude silence800 = 0 :=
  (maxAmplitude_replicate 12800 0).trans (by simp)

lemma silence800_length : silence800.length = 12800 := List.length_replicate _ _

lemma process_loud_mk (f : List Int → String) (b audio : List Int)
    (sil th : Nat)
    (h2 : ¬ maxAmplitude audio < 500) (h3 : ¬ th ≤ 0) :
    process_audio_chunk f ⟨true, b, sil, th⟩ audio =
      (none, ⟨true, b ++ audio, 0, th⟩, false) :=
  process_loud f ⟨true, b, sil, th⟩ audio rfl h2 h3

lemma process_silent_flush_mk (f : List Int → String) (b audio : List Int)
    (sil th : Nat) (h2 : maxAmplitude audio < 500)
    (h3 : th ≤ sil + audio.length) (h4 : 0 < b.length ∨ 0 < audio.length) :
    process_audio_chunk f ⟨true, b, sil, th⟩ audio =
      (if pyStripStr (f (b ++ audio)) = "" then none else some (f (b ++ audio)),
       ⟨true, [], 0, th⟩, true) :=
  process_silent_flush f ⟨true, b, sil, th⟩ audio rfl h2 h3 h4

lemma runChunks_cons_eq (f : List Int → String) (st : STTState) (c : List Int)
    (rest : List (List Int)) (t : Option String) (st2 : STTState) (fl : Bool)
    (h : process_audio_chunk f st c = (t, st2, fl)) :
    runChunks f st (c :: rest) =
      ((runChunks f st2 rest).1,
       (if fl then 1 else 0) + (runChunks f st2 rest).2) := by
  simp [runChunks, h]

/-- Feeding the default segmenter 100 ms of loud audio and then 800 ms of
silence flushes the buffer to the recognizer exactly once. -/
lemma noiseRun_flushes_once :
    (runChunks (fun _ => "hi") startedSTTState noiseRun).2 = 1 := by
  have hamp1 : ¬ maxAmplitude speechChunk < 500 := by
    rw [speechChunk_amp]; norm_num
  have hamp2 : maxAmplitude silence800 < 500 := by
    rw [silence800_amp]; norm_num
  have hth : ¬ defaultSilenceThreshold ≤ 0 := by
    norm_num [defaultSilenceThreshold]
  have hsil : defaultSilenceThreshold ≤ 0 + silence800.length := by
    rw [silence800_length]; norm_num [defaultSilenceThreshold]
  have hor : (0 : Nat) < speechChunk.length ∨ 0 < silence800.length :=
    Or.inr (by rw [silence800_length]; norm_num)
  have e1 := process_loud_mk (fun _ => "hi") [] speechChunk 0
    defaultSilenceThreshold hamp1 hth
  have e2 := process_silent_flush_mk (fun _ => "hi") speechChunk silence800 0
    defaultSilenceThreshold hamp2 hsil hor
  simp only [List.nil_append] at e1
  show (runChunks (fun _ => "hi")
    (⟨true, [], 0, defaultSilenceThreshold⟩ : STTState)
    [speechChunk, silence800]).2 = 1
  rw [runChunks_cons_eq (fun _ => "hi") ⟨true, [], 0, defaultSilenceThreshold⟩
        speechChunk [silence800] none
        ⟨true, speechChunk, 0, defaultSilenceThreshold⟩ false e1,
      runChunks_cons_eq (fun _ => "hi")
        ⟨true, speechChunk, 0, defaultSilenceThreshold⟩ silence800 []
        (if pyStripStr "hi" = "" then none else some "hi")
        ⟨true, [], 0, defaultSilenceThreshold⟩ true e2]
  rfl

/-- C2 counterexample: feeding the default-configured segmenter only 100 ms
of above-threshold audio followed by silence yields exactly one flush call to
the recognizer, not zero — `process_audio_chunk` has no minimum-speech-
duration check, so the buffer is not discarded as noise. -/
theorem C2_counterexample :
    (runChunks (fun _ => "hi") startedSTTState noiseRun).2 = 1 ∧
    (runChunks (fun _ => "hi") startedSTTState noiseRun).2 ≠ 0 := by
  refine ⟨noiseRun_flushes_once, ?_⟩
  rw [noiseRun_flushes_once]
  decide

/-- C2 (amended): whenever a chunk is classified silent by the fallback
detector and brings the accumulated silence up to the configured duration
(default 800 ms) while any audio at all is buffered, the buffer is flushed to
the recognizer — regardless of how much accumulated speech it holds, there
being no minimum speech duration; in particular the 100 ms-speech input
yields one flush instead of zero. -/
theorem C2_flush_without_minimum_speech (f : List Int → String)
    (st : STTState) (audio : List Int)
    (h1 : st.streaming = true)
    (h2 : maxAmplitude audio < 500)
    (h3 : st.silence_threshold ≤ st.silence_samples + audio.length)
    (h4 : st.audio_buffer ++ audio ≠ []) :
    (process_audio_chunk f st audio).2.2 = true ∧
    (process_audio_chunk f st audio).2.1.audio_buffer = [] ∧
    (runChunks (fun _ => "hi") startedSTTState noiseRun).2 = 1 := by
  have hor : 0 < st.audio_buffer.length ∨ 0 < audio.length := by
    by_contra hc
    push_neg at hc
    obtain ⟨hA, hB⟩ := hc
    apply h4
    have hA2 : st.audio_buffer = [] := List.length_eq_zero.mp (Nat.le_zero.mp hA)
    have hB2 : audio = [] := List.length_eq_zero.mp (Nat.le_zero.mp hB)
    simp [hA2, hB2]
  rw [process_silent_flush f st audio h1 h2 h3 hor]
  exact ⟨rfl, rfl, noiseRun_flushes_once⟩

/-- Witness for the amended C2: a buffer holding far less than the minimum
speech duration is still flushed once the silence threshold is reached. -/
theorem C2_flush_without_minimum_speech_witness :
    (({ streaming := true, audio_buffer := [1000], silence_samples := 12800,
        silence_threshold := 12800 } : STTState).streaming = true) ∧
    maxAmplitude [0] < 500 ∧
    (((process_audio_chunk (fun _ => "hi")
        { streaming := true, audio_buffer := [1000], silence_samples := 12800,
          silence_threshold := 12800 } [0]).2.2 = true) ∧
    ((process_audio_chunk (fun _ => "hi")
        { streaming := true, audio_buffer := [1000], silence_samples := 12800,
          silence_threshold := 12800 } [0]).2.1.audio_buffer = []) ∧
    (runChunks (fun _ => "hi") startedSTTState noiseRun).2 = 1) :=
  ⟨rfl, by decide,
   C2_flush_without_minimum_speech (fun _ => "hi")
     { streaming := true, audio_buffer := [1000], silence_samples := 12800,
       silence_threshold := 12800 } [0]
     rfl (by decide) (by decide) (by decide)⟩

/-! ### C3: chunk ordering in streaming synthesis -/

lemma streamLoop_eq_filterMap (synth : String → Except String (List Int)) :
    ∀ ss : List String, streamLoop synth ss =
      ss.filterMap (fun s => if s = "" then none else yieldOf synth s) := by
  intro ss
  induction ss with
  | nil => rfl
  | cons s rest ih =>
    by_cases hs : s = ""
    · simp [streamLoop, hs, ih]
    · cases hsy : synth s with
      | ok a =>
        by_cases ha : a = [] <;> simp [streamLoop, yieldOf, hs, hsy, ha, ih]
      | error e => simp [streamLoop, yieldOf, hs, hsy, ih]

lemma piperStreamLoop_eq_filterMap (synth : String → Except String (List Int))
    (sentences : List String) :
    ∀ order : List Nat, piperStreamLoop synth sentences order =
      order.filterMap (fun i => (sentences.get? i).bind (yieldOf synth)) := by
  intro order
  induction order with
  | nil => rfl
  | cons i rest ih =>
    cases hv : (sentences.get? i).bind (yieldOf synth) <;>
      rw [List.get?_eq_getElem?] at hv <;>
      simp [piperStreamLoop, List.filterMap_cons, hv, ih]

/-- C3 counterexample: on the two-sentence text "A. B.", when the synthesis
call for the second sentence completes first, `PiperTTSProvider.
synthesize_stream` yields the second sentence's audio before the first
sentence's — completion order, not the original sentence order. -/
theorem C3_counterexample :
    piper_synthesize_stream synthOk "A. B." [1, 0] =
      Except.ok [synthAudio "B.", synthAudio "A."] ∧
    synthAudio "B." ≠ synthAudio "A." ∧
    piper_synthesize_stream synthOk "A. B." [1, 0] ≠
      Except.ok [synthAudio "A.", synthAudio "B."] := by
  have h1 : piper_synthesize_stream synthOk "A. B." [1, 0] =
      Except.ok [synthAudio "B.", synthAudio "A."] := rfl
  refine ⟨h1, by decide, ?_⟩
  intro h
  rw [h1] at h
  exact absurd (Except.ok.inj h) (by decide)

/-- C3 (amended): for multi-sentence text the Piper streaming synthesizer
yields the per-sentence chunks in the completion order of the individual
synthesis calls, which need not be the original sentence order; the base
`TTSProvider.synthesize_stream`, which synthesizes sequentially, does yield
them in the original sentence order (an order-preserving filter of the
sentence list). -/
theorem C3_stream_order (synth : String → Except String (List Int))
    (text : String) (completionOrder : List Nat)
    (h : 2 ≤ (split_into_sentences text).length) :
    base_synthesize_stream synth text =
      Except.ok ((split_into_sentences text).filterMap
        (fun s => if s = "" then none else yieldOf synth s)) ∧
    piper_synthesize_stream synth text completionOrder =
      Except.ok (completionOrder.filterMap
        (fun i => ((split_into_sentences text).get? i).bind (yieldOf synth))) := by
  have hlen : ¬ (split_into_sentences text).length ≤ 1 := by omega
  constructor
  · simp [base_synthesize_stream, hlen, streamLoop_eq_filterMap]
  · simp [piper_synthesize_stream, hlen, piperStreamLoop_eq_filterMap]

/-- Witness for the amended C3 on the text "A. B." with reversed completion
order. -/
theorem C3_stream_order_witness :
    2 ≤ (split_into_sentences "A. B.").length ∧
    (base_synthesize_stream synthOk "A. B." =
      Except.ok ((split_into_sentences "A. B.").filterMap
        (fun s => if s = "" then none else yieldOf synthOk s)) ∧
    piper_synthesize_stream synthOk "A. B." [1, 0] =
      Except.ok (([1, 0] : List Nat).filterMap
        (fun i => ((split_into_sentences "A. B.").get? i).bind (yieldOf synthOk)))) :=
  ⟨by decide, C3_stream_order synthOk "A. B." [1, 0] (by decide)⟩
